import Mathlib

/-!
# Selection helper, reference-image loading and image lock command

A shallow embedding of

* `krita/ui/kis_selection_tool_helper.cpp`
  (`KisSelectionToolHelper::selectPixelSelection`, `KisSelectionToolHelper::addSelectionShape`),
* `plugins/tools/defaulttool/referenceimagestool/ToolReferenceImages.cpp`
  (`ToolReferenceImages::loadReferenceImages`),
* `krita/image/commands/kis_image_lock_command.cpp`
  (`KisImageLockCommand::redo`, `KisImageLockCommand::undo`).

The C++ methods mutate objects reached through pointers.  Here every method is a
function from the state before the call to the state after it.  Calls made on
collaborators are appended to a call log kept in the state, so that "which
operations were issued, with which arguments, in which order" is observable.
A dereference of a null pointer is the result `none`.
-/

namespace Krita

/-! ## Data model of the selection helper -/

/-- Rectangle as in Qt: left, top, width, height. -/
structure QRect where
  x : Int
  y : Int
  width : Int
  height : Int
deriving DecidableEq, Repr

/-- The four combine modes named by the source (`SELECTION_REPLACE`, ...). -/
inductive selectionAction where
  | SELECTION_REPLACE
  | SELECTION_ADD
  | SELECTION_SUBTRACT
  | SELECTION_INTERSECT
deriving DecidableEq, Repr

/-- Modelled from the spec: the class `KisPixelSelection` (declared in
`kis_pixel_selection.h`, not among the sources).  The spec calls it a dense per-pixel
coverage, "0-255 or boolean"; the boolean reading is taken: a mask says for every pixel
`(x, y)` whether it is selected. -/
abbrev KisPixelSelection := Int → Int → Bool

/-- Identity of a vector shape (`KoShape*`). -/
abbrev KoShape := Nat

/-- Modelled from the spec: the class `KisShapeSelection` (declared in
`kis_shape_selection.h`, not among the sources): a container, told apart from other
containers by `ident`, holding an ordered collection of vector shapes. -/
structure KisShapeSelection where
  ident : Nat
  children : List KoShape
deriving DecidableEq, Repr

/-- Modelled from the spec: the class `KisSelection` (not among the sources): a selection
always has a pixel mask, and has a shape selection only once one was created. -/
structure KisSelection where
  pixelSelection : KisPixelSelection
  shapeSelection : Option KisShapeSelection

/-- What `KoShapeController::addShape` is asked to register: the shape-selection
container (a `KisShapeSelection*`, itself a `KoShape`) or a plain shape. -/
inductive ShapeRef where
  | container (ident : Nat)
  | shape (s : KoShape)
deriving DecidableEq, Repr

/-- Undo commands the helper gets hold of: the transaction built in
`selectPixelSelection`, and the commands handed out by the shape controller, each a
fresh object told apart by `serial`. -/
inductive QUndoCommand where
  | KisSelectedTransaction (name : String)
  | addShapeCommand (serial : Nat) (target : ShapeRef)
deriving DecidableEq, Repr

/-- Calls the helper makes on its collaborators, as they appear in the source. -/
inductive Call where
  | setGlobalSelection
  | clear
  | invert
  | applySelection (action : selectionAction)
  | setDirty (rc : QRect)
  | updateProjection (rc : QRect)
  | selectionChanged
  | newKisShapeSelection (ident : Nat)
  | addShape (target : ShapeRef) (cmd : QUndoCommand)
  | redo (cmd : QUndoCommand)
  | setShapeSelection (ident : Nat)
  | addChild (ident : Nat) (shape : KoShape)
deriving DecidableEq, Repr

/-- The helper together with what it reaches through `m_layer`, `m_image` and
`m_canvas`: the layer's selection (`m_layer->selection()`, null when there is none), the
image bounds (`m_image->bounds()`), the transaction name, the counters from which fresh
objects are numbered, and the log of calls made so far. -/
structure KisSelectionToolHelper where
  selection : Option KisSelection
  bounds : QRect
  m_name : String
  nextCommand : Nat
  nextContainer : Nat
  calls : List Call

/-! ## Collaborators of the selection helper -/

/-- Modelled from the spec: `KisPixelSelection::clear` (not among the sources) leaves the
mask all-unselected. -/
def KisPixelSelection.clear (_m : KisPixelSelection) : KisPixelSelection :=
  fun _ _ => false

/-- Modelled from the spec: `KisPixelSelection::invert` (not among the sources) selects
exactly the pixels that were not selected. -/
def KisPixelSelection.invert (m : KisPixelSelection) : KisPixelSelection :=
  fun x y => !(m x y)

/-- Modelled from the spec: `KisPixelSelection::applySelection` (not among the sources):
"Add = union, Subtract = difference, Intersect = intersection, Replace = assignment". -/
def KisPixelSelection.applySelection (m : KisPixelSelection) (selection : KisPixelSelection)
    (action : selectionAction) : KisPixelSelection :=
  match action with
  | .SELECTION_REPLACE => selection
  | .SELECTION_ADD => fun x y => m x y || selection x y
  | .SELECTION_SUBTRACT => fun x y => m x y && !(selection x y)
  | .SELECTION_INTERSECT => fun x y => m x y && selection x y

/-- Modelled from the spec: `KisImage::setGlobalSelection` (not among the sources)
creates the selection, "global selection initialized to all-unselected", without a shape
selection. -/
def setGlobalSelection (h : KisSelectionToolHelper) : KisSelectionToolHelper :=
  { h with
    selection := some { pixelSelection := fun _ _ => false, shapeSelection := none }
    calls := h.calls ++ [Call.setGlobalSelection] }

/-- A method `f` called on `m_layer->selection()->getOrCreatePixelSelection()`, logged as
`c`.  The pointer aliases the layer's mask, so the layer's mask changes.  A null
`m_layer->selection()` is a null dereference. -/
def onPixelSelection (c : Call) (f : KisPixelSelection → KisPixelSelection)
    (h : KisSelectionToolHelper) : Option KisSelectionToolHelper :=
  match h.selection with
  | none => none
  | some s =>
    some { h with
      selection := some { s with pixelSelection := f s.pixelSelection }
      calls := h.calls ++ [c] }

/-- Line 60: `getOrCreatePixelSelection->clear()`. -/
def clear (h : KisSelectionToolHelper) : Option KisSelectionToolHelper :=
  onPixelSelection Call.clear KisPixelSelection.clear h

/-- Line 62: `getOrCreatePixelSelection->invert()`. -/
def invert (h : KisSelectionToolHelper) : Option KisSelectionToolHelper :=
  onPixelSelection Call.invert KisPixelSelection.invert h

/-- Line 64: `getOrCreatePixelSelection->applySelection(selection, action)`. -/
def applySelection (h : KisSelectionToolHelper) (selection : KisPixelSelection)
    (action : selectionAction) : Option KisSelectionToolHelper :=
  onPixelSelection (Call.applySelection action)
    (fun m => KisPixelSelection.applySelection m selection action) h

/-- Lines 68-70 and 72-74: `setDirty(rc)`, `updateProjection(rc)`, `selectionChanged()`.
The second call goes through `m_layer->selection()`, hence the null check. -/
def markDirty (h : KisSelectionToolHelper) (rc : QRect) : Option KisSelectionToolHelper :=
  match h.selection with
  | none => none
  | some _ =>
    some { h with
      calls := h.calls ++ [Call.setDirty rc, Call.updateProjection rc, Call.selectionChanged] }

/-- `KisSelectionToolHelper::selectPixelSelection` (lines 47-77).  `selectedRect` stands
for `KisPixelSelection::selectedRect`, which is not among the sources and is taken as a
parameter.  The bind on `h1.selection` is the dereference of `m_layer->selection()` at
line 56; the pointer obtained there is the layer's own mask, on which `clear`, `invert`
and `applySelection` then act. -/
def selectPixelSelection (selectedRect : KisPixelSelection → QRect)
    (h : KisSelectionToolHelper) (selection : KisPixelSelection) (action : selectionAction) :
    Option (QUndoCommand × KisSelectionToolHelper) := do
  let hasSelection := h.selection.isSome
  let h1 := if !hasSelection then setGlobalSelection h else h
  let t := QUndoCommand.KisSelectedTransaction h1.m_name
  let _ ← h1.selection
  let h2 ←
    if !hasSelection || action == selectionAction.SELECTION_REPLACE then do
      let hc ← clear h1
      if action == selectionAction.SELECTION_SUBTRACT then invert hc else pure hc
    else pure h1
  let h3 ← applySelection h2 selection action
  let h4 ←
    if hasSelection && action != selectionAction.SELECTION_REPLACE
        && action != selectionAction.SELECTION_INTERSECT then
      markDirty h3 (selectedRect selection)
    else
      markDirty h3 h3.bounds
  pure (t, h4)

/-- The calls of a log that mark a region dirty: `setDirty` and `updateProjection`. -/
def dirtyCalls (cs : List Call) : List Call :=
  cs.filter fun c =>
    match c with
    | Call.setDirty _ => true
    | Call.updateProjection _ => true
    | _ => false

/-! ## Shape selection -/

/-- Line 90: `new KisShapeSelection(m_image, selection)`, a fresh container without
children. -/
def newKisShapeSelection (h : KisSelectionToolHelper) :
    KisShapeSelection × KisSelectionToolHelper :=
  ({ ident := h.nextContainer, children := [] },
   { h with
     nextContainer := h.nextContainer + 1
     calls := h.calls ++ [Call.newKisShapeSelection h.nextContainer] })

/-- Modelled from the spec: `KoShapeController::addShape` (not among the sources): the
external shape controller answers a registration request with a new undo command that the
caller must run; the request itself changes nothing else. -/
def shapeControllerAddShape (h : KisSelectionToolHelper) (target : ShapeRef) :
    QUndoCommand × KisSelectionToolHelper :=
  (QUndoCommand.addShapeCommand h.nextCommand target,
   { h with
     nextCommand := h.nextCommand + 1
     calls := h.calls ++ [Call.addShape target (QUndoCommand.addShapeCommand h.nextCommand target)] })

/-- Line 92: `cmd->redo()`.  The command belongs to the external undo framework; the
helper sees only that it was run. -/
def redo (h : KisSelectionToolHelper) (cmd : QUndoCommand) : KisSelectionToolHelper :=
  { h with calls := h.calls ++ [Call.redo cmd] }

/-- Line 93: `selection->setShapeSelection(shapeSelection)` on `m_layer->selection()`. -/
def setShapeSelection (h : KisSelectionToolHelper) (shapeSelection : KisShapeSelection) :
    Option KisSelectionToolHelper :=
  match h.selection with
  | none => none
  | some s =>
    some { h with
      selection := some { s with shapeSelection := some shapeSelection }
      calls := h.calls ++ [Call.setShapeSelection shapeSelection.ident] }

/-- Modelled from the spec: `KisShapeSelection::addChild` (not among the sources)
registers `shape` as a child of the container: the shape joins the end of the ordered
collection.  `shapeSelection` is the pointer held by the caller; the only container there
is lives in the layer's selection. -/
def addChild (h : KisSelectionToolHelper) (shapeSelection : Nat) (shape : KoShape) :
    Option KisSelectionToolHelper :=
  match h.selection with
  | none => none
  | some s =>
    match s.shapeSelection with
    | none => none
    | some c =>
      if c.ident = shapeSelection then
        some { h with
          selection := some { s with
            shapeSelection := some { c with children := c.children ++ [shape] } }
          calls := h.calls ++ [Call.addChild shapeSelection shape] }
      else none

/-- `KisSelectionToolHelper::addSelectionShape` (lines 79-101).  The local pointer
`shapeSelection` is kept as the identity of the container it points to. -/
def addSelectionShape (h : KisSelectionToolHelper) (shape : KoShape) :
    Option (QUndoCommand × KisSelectionToolHelper) := do
  let hasSelection := h.selection.isSome
  let h1 := if !hasSelection then setGlobalSelection h else h
  let selection ← h1.selection
  let (shapeSelection, h2) ←
    if !selection.shapeSelection.isSome then do
      let (created, ha) := newKisShapeSelection h1
      let (cmd, hb) := shapeControllerAddShape ha (ShapeRef.container created.ident)
      let hc := redo hb cmd
      let hd ← setShapeSelection hc created
      pure (created.ident, hd)
    else do
      let existing ← selection.shapeSelection
      pure (existing.ident, h1)
  let (cmd, h3) := shapeControllerAddShape h2 (ShapeRef.shape shape)
  let h4 ← addChild h3 shapeSelection shape
  pure (cmd, h4)

/-- The container on the layer's selection, if any. -/
def shapeSelectionOf (h : KisSelectionToolHelper) : Option KisShapeSelection :=
  h.selection.bind fun s => s.shapeSelection

/-- The commands a log shows as run by the helper. -/
def redone (cs : List Call) : List QUndoCommand :=
  cs.filterMap fun c =>
    match c with
    | Call.redo cmd => some cmd
    | _ => none

/-- The containers a log shows as created. -/
def createdContainers (cs : List Call) : List Nat :=
  cs.filterMap fun c =>
    match c with
    | Call.newKisShapeSelection k => some k
    | _ => none

/-- The commands a log shows as answers of the shape controller to the registration of a
container. -/
def containerRegistrations (cs : List Call) : List QUndoCommand :=
  cs.filterMap fun c =>
    match c with
    | Call.addShape (ShapeRef.container _) cmd => some cmd
    | _ => none

/-! ## Loading a reference-image collection -/

/-- Identity of a reference image (`KisReferenceImage*`). -/
abbrev KisReferenceImage := Nat

/-- What `loadReferenceImages` learns from its surroundings during one call. -/
structure LoadRequest where
  /-- Whether `dynamic_cast<KisCanvas2*>(canvas())` is non-null (line 95). -/
  kisCanvas : Bool
  /-- The answer of `dialog.filename()` (line 107). -/
  filename : String
  /-- The answer of `QFileInfo(filename).exists()` (line 109). -/
  fileExists : Bool
  /-- The answer of `file.open(QIODevice::ReadOnly)` (line 112). -/
  openOk : Bool
  /-- The answer of `collection.load(&file)` (line 118). -/
  loadOk : Bool
  /-- The answer of `collection.referenceImages()` after `load`, whatever `load` said. -/
  referenceImages : List KisReferenceImage

/-- The tool with what it reaches through its canvas: the shape list of the document's
reference-images layer (`referenceImagesLayer()`, null when the document has none) and
the error boxes shown so far. -/
structure ToolReferenceImages where
  referenceImagesLayer : Option (List KisReferenceImage)
  critical : List String
deriving DecidableEq, Repr

/-- Lines 113 and 125: `QMessageBox::critical(...)` with the given text. -/
def messageBoxCritical (t : ToolReferenceImages) (text : String) : ToolReferenceImages :=
  { t with critical := t.critical ++ [text] }

/-- Modelled from the spec: `KisReferenceImagesLayer::addShape` (not among the sources)
merges the image into the "live layer's shape list", an ordered list: the image joins
its end.  A null layer is a null dereference. -/
def layerAddShape (t : ToolReferenceImages) (reference : KisReferenceImage) :
    Option ToolReferenceImages :=
  match t.referenceImagesLayer with
  | none => none
  | some shapes => some { t with referenceImagesLayer := some (shapes ++ [reference]) }

/-- `ToolReferenceImages::loadReferenceImages` (lines 93-128). -/
def loadReferenceImages (r : LoadRequest) (t : ToolReferenceImages) :
    Option ToolReferenceImages :=
  if !r.kisCanvas then some t
  else if r.filename.isEmpty then some t
  else if !r.fileExists then some t
  else if !r.openOk then
    some (messageBoxCritical t ("Could not open '" ++ r.filename ++ "'."))
  else if r.loadOk then
    r.referenceImages.foldlM layerAddShape t
  else
    some (messageBoxCritical t ("Could not load reference images from '" ++ r.filename ++ "'."))

/-! ## Image lock command -/

/-- Calls `KisImageLockCommand` makes on its image. -/
inductive ImageCall where
  | lock
  | unlock
  | refreshGraph
deriving DecidableEq, Repr

/-- The image as the command sees it (`KisImage` is not among the sources): the calls it
has received, oldest first. -/
abbrev KisImage := List ImageCall

/-- Modelled from the spec: the lock counter behind `KisImage::lock` and
`KisImage::unlock` (not among the sources; the spec only names "document locking" and
calls the commands "trivial state toggles"): every `lock()` received counts one up, every
`unlock()` one down, `refreshGraph()` leaves the count alone. -/
def lockCount : KisImage → Int
  | [] => 0
  | ImageCall.lock :: cs => lockCount cs + 1
  | ImageCall.unlock :: cs => lockCount cs - 1
  | ImageCall.refreshGraph :: cs => lockCount cs

/-- The command of `kis_image_lock_command.cpp`; its image is passed to `redo` and
`undo`. -/
structure KisImageLockCommand where
  m_lockImage : Bool
deriving DecidableEq, Repr

/-- `KisImageLockCommand::redo` (lines 32-40). -/
def KisImageLockCommand.redo (c : KisImageLockCommand) (m_image : KisImage) : KisImage :=
  let locked :=
    if c.m_lockImage then m_image ++ [ImageCall.lock]
    else m_image ++ [ImageCall.unlock]
  locked ++ [ImageCall.refreshGraph]

/-- `KisImageLockCommand::undo` (lines 42-50). -/
def KisImageLockCommand.undo (c : KisImageLockCommand) (m_image : KisImage) : KisImage :=
  let unlocked :=
    if c.m_lockImage then m_image ++ [ImageCall.unlock]
    else m_image ++ [ImageCall.lock]
  unlocked ++ [ImageCall.refreshGraph]

/-! ## Sample inputs -/

/-- A helper bound to a layer without selection, on a 4 by 4 image. -/
def freshHelper : KisSelectionToolHelper :=
  { selection := none
    bounds := { x := 0, y := 0, width := 4, height := 4 }
    m_name := "Rectangular Selection"
    nextCommand := 0
    nextContainer := 0
    calls := [] }

/-- The mask that selects the single pixel `(px, py)`. -/
def pixelMask (px py : Int) : KisPixelSelection :=
  fun x y => decide (x = px) && decide (y = py)

/-- A bounding rectangle for the sample masks: every mask is given the 1 by 1 rectangle at
the origin. -/
def unitRect (_m : KisPixelSelection) : QRect :=
  { x := 0, y := 0, width := 1, height := 1 }

/-- A helper bound to a layer whose selection covers every pixel and has no container. -/
def selectedHelper : KisSelectionToolHelper :=
  { freshHelper with
    selection := some { pixelSelection := fun _ _ => true, shapeSelection := none } }

/-- Explicit form of the state after `selectPixelSelection`: the call always returns the
transaction, the layer ends with a selection whose mask is the new mask combined into the
base mask, and the log grows by the calls of lines 52-74. -/
theorem selectPixelSelection_eq (selectedRect : KisPixelSelection → QRect)
    (h : KisSelectionToolHelper) (selection : KisPixelSelection) (action : selectionAction) :
    selectPixelSelection selectedRect h selection action =
      some (QUndoCommand.KisSelectedTransaction h.m_name,
        { h with
          selection := some
            { pixelSelection :=
                KisPixelSelection.applySelection
                  (if h.selection.isNone ∨ action = selectionAction.SELECTION_REPLACE then
                    (if action = selectionAction.SELECTION_SUBTRACT then
                      KisPixelSelection.invert (KisPixelSelection.clear
                        ((h.selection.map (fun s => s.pixelSelection)).getD (fun _ _ => false)))
                    else
                      KisPixelSelection.clear
                        ((h.selection.map (fun s => s.pixelSelection)).getD (fun _ _ => false)))
                  else (h.selection.map (fun s => s.pixelSelection)).getD (fun _ _ => false))
                  selection action
              shapeSelection := h.selection.bind (fun s => s.shapeSelection) }
          calls := h.calls ++
            ((if h.selection.isNone then [Call.setGlobalSelection] else []) ++
             (if h.selection.isNone ∨ action = selectionAction.SELECTION_REPLACE then
               [Call.clear] else []) ++
             (if h.selection.isNone ∧ action = selectionAction.SELECTION_SUBTRACT then
               [Call.invert] else []) ++
             [Call.applySelection action] ++
             (if h.selection.isSome ∧ (action = selectionAction.SELECTION_ADD ∨
                  action = selectionAction.SELECTION_SUBTRACT) then
               [Call.setDirty (selectedRect selection),
                Call.updateProjection (selectedRect selection), Call.selectionChanged]
              else
               [Call.setDirty h.bounds, Call.updateProjection h.bounds,
                Call.selectionChanged])) }) := by
  rcases h with ⟨sel, bounds, name, nc, nk, calls⟩
  cases sel <;> cases action <;>
    simp [selectPixelSelection, setGlobalSelection, clear, invert, applySelection, markDirty,
      onPixelSelection]

/-- C1: `selectPixelSelection` always returns, and the region it marks dirty (one
`setDirty` and one `updateProjection`, same rectangle) is the selected rectangle of the new
mask when the layer had a selection before the call and the action is Add or Subtract, and
the whole image bounds in every other case (no prior selection, Replace, Intersect). -/
theorem selectPixelSelection_dirty_region (selectedRect : KisPixelSelection → QRect)
    (h : KisSelectionToolHelper) (selection : KisPixelSelection) (action : selectionAction) :
    ∃ t h' new, selectPixelSelection selectedRect h selection action = some (t, h') ∧
      h'.calls = h.calls ++ new ∧
      dirtyCalls new =
        if h.selection.isSome ∧ (action = selectionAction.SELECTION_ADD ∨
            action = selectionAction.SELECTION_SUBTRACT) then
          [Call.setDirty (selectedRect selection), Call.updateProjection (selectedRect selection)]
        else
          [Call.setDirty h.bounds, Call.updateProjection h.bounds] := by
  refine ⟨_, _, _, selectPixelSelection_eq selectedRect h selection action, rfl, ?_⟩
  rcases h with ⟨sel, bounds, name, nc, nk, calls⟩
  cases sel <;> cases action <;> simp [dirtyCalls]

/-- C2: whatever the layer had before, after `selectPixelSelection(m, Replace)` the
layer's mask selects exactly the pixels of `m`; a second `selectPixelSelection(m, Replace)`
leaves the layer's selection as the first call left it. -/
theorem selectPixelSelection_replace_exact_idempotent
    (selectedRect : KisPixelSelection → QRect) (h : KisSelectionToolHelper)
    (m : KisPixelSelection) :
    ∃ t1 h1 t2 h2 s,
      selectPixelSelection selectedRect h m selectionAction.SELECTION_REPLACE = some (t1, h1) ∧
      selectPixelSelection selectedRect h1 m selectionAction.SELECTION_REPLACE = some (t2, h2) ∧
      h1.selection = some s ∧ (∀ x y, s.pixelSelection x y = m x y) ∧
      h2.selection = h1.selection := by
  refine ⟨_, _, _, _, _, selectPixelSelection_eq selectedRect h m _,
    selectPixelSelection_eq selectedRect _ m _, rfl, ?_, ?_⟩
  · intro x y
    simp [KisPixelSelection.applySelection]
  · rcases h with ⟨sel, bounds, name, nc, nk, calls⟩
    cases sel <;> simp [KisPixelSelection.applySelection]

/-- C3, counterexample: on a layer without selection, `selectPixelSelection(m, Subtract)`
with `m` the single pixel `(0, 0)` returns and leaves pixel `(1, 1)` selected, so the
resulting mask is not empty. -/
theorem subtract_without_selection_selects_pixel :
    ∃ t h' s,
      selectPixelSelection unitRect freshHelper (pixelMask 0 0)
        selectionAction.SELECTION_SUBTRACT = some (t, h') ∧
      h'.selection = some s ∧ s.pixelSelection 1 1 = true := by
  refine ⟨_, _, _, selectPixelSelection_eq unitRect freshHelper (pixelMask 0 0) _, rfl, ?_⟩
  simp [freshHelper, KisPixelSelection.applySelection, KisPixelSelection.invert,
    KisPixelSelection.clear, pixelMask]

/-- C3, amended: on a layer without selection, `selectPixelSelection(m, Subtract)` returns
and leaves selected exactly the pixels that `m` does not cover. -/
theorem subtract_without_selection_complement (selectedRect : KisPixelSelection → QRect)
    (h : KisSelectionToolHelper) (m : KisPixelSelection) (hnone : h.selection = none) :
    ∃ t h' s,
      selectPixelSelection selectedRect h m selectionAction.SELECTION_SUBTRACT = some (t, h') ∧
      h'.selection = some s ∧ ∀ x y, s.pixelSelection x y = !(m x y) := by
  refine ⟨_, _, _, selectPixelSelection_eq selectedRect h m _, rfl, ?_⟩
  intro x y
  simp [hnone, KisPixelSelection.applySelection, KisPixelSelection.invert,
    KisPixelSelection.clear]

/-- C3, amended, at the sample helper with the single-pixel mask `(0, 0)`. -/
theorem subtract_without_selection_complement_witness :
    freshHelper.selection = none ∧
    ∃ t h' s,
      selectPixelSelection unitRect freshHelper (pixelMask 0 0)
        selectionAction.SELECTION_SUBTRACT = some (t, h') ∧
      h'.selection = some s ∧ ∀ x y, s.pixelSelection x y = !(pixelMask 0 0 x y) :=
  ⟨rfl, subtract_without_selection_complement unitRect freshHelper (pixelMask 0 0) rfl⟩

/-- C4: on a layer whose coverage is empty (no selection, or a selection with no pixel
selected), for disjoint masks `a` and `b`, `selectPixelSelection(a, Add)` followed by
`selectPixelSelection(b, Add)` returns and selects exactly the pixels of `a` or `b`, and
the opposite order selects the same pixels. -/
theorem add_then_add_is_union_in_either_order (selectedRect : KisPixelSelection → QRect)
    (h : KisSelectionToolHelper) (a b : KisPixelSelection)
    (hempty : ∀ s, h.selection = some s → ∀ x y, s.pixelSelection x y = false)
    (_hdisjoint : ∀ x y, ¬ (a x y = true ∧ b x y = true)) :
    ∃ t1 h1 t2 h2 s u1 g1 u2 g2 r,
      selectPixelSelection selectedRect h a selectionAction.SELECTION_ADD = some (t1, h1) ∧
      selectPixelSelection selectedRect h1 b selectionAction.SELECTION_ADD = some (t2, h2) ∧
      h2.selection = some s ∧
      (∀ x y, s.pixelSelection x y = (a x y || b x y)) ∧
      selectPixelSelection selectedRect h b selectionAction.SELECTION_ADD = some (u1, g1) ∧
      selectPixelSelection selectedRect g1 a selectionAction.SELECTION_ADD = some (u2, g2) ∧
      g2.selection = some r ∧
      (∀ x y, r.pixelSelection x y = s.pixelSelection x y) := by
  refine ⟨_, _, _, _, _, _, _, _, _, _, selectPixelSelection_eq selectedRect h a _,
    selectPixelSelection_eq selectedRect _ b _, rfl, ?_,
    selectPixelSelection_eq selectedRect h b _,
    selectPixelSelection_eq selectedRect _ a _, rfl, ?_⟩
  · intro x y
    rcases h with ⟨sel, bounds, name, nc, nk, calls⟩
    cases sel with
    | none => simp [KisPixelSelection.applySelection, KisPixelSelection.clear]
    | some s0 =>
      have := hempty s0 rfl x y
      simp_all [KisPixelSelection.applySelection]
  · intro x y
    rcases h with ⟨sel, bounds, name, nc, nk, calls⟩
    cases sel with
    | none =>
      simp [KisPixelSelection.applySelection, KisPixelSelection.clear, Bool.or_comm]
    | some s0 =>
      have := hempty s0 rfl x y
      simp_all [KisPixelSelection.applySelection, Bool.or_comm]

/-- C4 at the sample helper with the single-pixel masks `(0, 0)` and `(1, 0)`. -/
theorem add_then_add_is_union_in_either_order_witness :
    (∀ s, freshHelper.selection = some s → ∀ x y, s.pixelSelection x y = false) ∧
    (∀ x y, ¬ (pixelMask 0 0 x y = true ∧ pixelMask 1 0 x y = true)) ∧
    ∃ t1 h1 t2 h2 s u1 g1 u2 g2 r,
      selectPixelSelection unitRect freshHelper (pixelMask 0 0)
        selectionAction.SELECTION_ADD = some (t1, h1) ∧
      selectPixelSelection unitRect h1 (pixelMask 1 0)
        selectionAction.SELECTION_ADD = some (t2, h2) ∧
      h2.selection = some s ∧
      (∀ x y, s.pixelSelection x y = (pixelMask 0 0 x y || pixelMask 1 0 x y)) ∧
      selectPixelSelection unitRect freshHelper (pixelMask 1 0)
        selectionAction.SELECTION_ADD = some (u1, g1) ∧
      selectPixelSelection unitRect g1 (pixelMask 0 0)
        selectionAction.SELECTION_ADD = some (u2, g2) ∧
      g2.selection = some r ∧
      (∀ x y, r.pixelSelection x y = s.pixelSelection x y) :=
  have hempty : ∀ s, freshHelper.selection = some s → ∀ x y, s.pixelSelection x y = false :=
    fun _ hs => by simp [freshHelper] at hs
  have hdisjoint : ∀ x y, ¬ (pixelMask 0 0 x y = true ∧ pixelMask 1 0 x y = true) :=
    fun x y => by simp [pixelMask]; omega
  ⟨hempty, hdisjoint,
    add_then_add_is_union_in_either_order unitRect freshHelper (pixelMask 0 0) (pixelMask 1 0)
      hempty hdisjoint⟩

/-- C6: `selectPixelSelection` always returns, and the mask it combines the new mask into
is: without prior selection, the all-selected mask for Subtract and the all-unselected
mask otherwise; with a prior selection, the all-unselected mask for Replace and the layer's
existing mask otherwise.  `clear()` is called exactly when there was no prior selection or
the action is Replace, `invert()` exactly when there was no prior selection and the action
is Subtract. -/
theorem selectPixelSelection_base_mask (selectedRect : KisPixelSelection → QRect)
    (h : KisSelectionToolHelper) (selection : KisPixelSelection) (action : selectionAction) :
    ∃ t h' s new, selectPixelSelection selectedRect h selection action = some (t, h') ∧
      h'.selection = some s ∧ h'.calls = h.calls ++ new ∧
      s.pixelSelection =
        KisPixelSelection.applySelection
          (match h.selection with
            | none =>
              if action = selectionAction.SELECTION_SUBTRACT then fun _ _ => true
              else fun _ _ => false
            | some prior =>
              if action = selectionAction.SELECTION_REPLACE then fun _ _ => false
              else prior.pixelSelection)
          selection action ∧
      (Call.clear ∈ new ↔
        h.selection.isNone ∨ action = selectionAction.SELECTION_REPLACE) ∧
      (Call.invert ∈ new ↔
        h.selection.isNone ∧ action = selectionAction.SELECTION_SUBTRACT) := by
  refine ⟨_, _, _, _, selectPixelSelection_eq selectedRect h selection action, rfl, rfl,
    ?_, ?_, ?_⟩
  · rcases h with ⟨sel, bounds, name, nc, nk, calls⟩
    cases sel <;> cases action <;>
      simp [KisPixelSelection.clear, KisPixelSelection.invert] <;> rfl
  · rcases h with ⟨sel, bounds, name, nc, nk, calls⟩
    cases sel <;> cases action <;> simp
  · rcases h with ⟨sel, bounds, name, nc, nk, calls⟩
    cases sel <;> cases action <;> simp

/-- C7: whatever the layer had before, for disjoint masks `a` and `b`,
`selectPixelSelection(a, Intersect)` followed by `selectPixelSelection(b, Intersect)`
returns and leaves no pixel selected. -/
theorem intersect_then_intersect_disjoint_is_empty
    (selectedRect : KisPixelSelection → QRect) (h : KisSelectionToolHelper)
    (a b : KisPixelSelection) (hdisjoint : ∀ x y, ¬ (a x y = true ∧ b x y = true)) :
    ∃ t1 h1 t2 h2 s,
      selectPixelSelection selectedRect h a selectionAction.SELECTION_INTERSECT
        = some (t1, h1) ∧
      selectPixelSelection selectedRect h1 b selectionAction.SELECTION_INTERSECT
        = some (t2, h2) ∧
      h2.selection = some s ∧ ∀ x y, s.pixelSelection x y = false := by
  refine ⟨_, _, _, _, _, selectPixelSelection_eq selectedRect h a _,
    selectPixelSelection_eq selectedRect _ b _, rfl, ?_⟩
  intro x y
  have hd := hdisjoint x y
  rcases h with ⟨sel, bounds, name, nc, nk, calls⟩
  cases sel with
  | none => simp [KisPixelSelection.applySelection, KisPixelSelection.clear]
  | some s0 =>
    cases ha : a x y <;> cases hb : b x y <;>
      simp_all [KisPixelSelection.applySelection]

/-- C7 at a helper whose layer has every pixel selected, with the single-pixel masks
`(0, 0)` and `(1, 0)`. -/
theorem intersect_then_intersect_disjoint_is_empty_witness :
    (∀ x y, ¬ (pixelMask 0 0 x y = true ∧ pixelMask 1 0 x y = true)) ∧
    ∃ t1 h1 t2 h2 s,
      selectPixelSelection unitRect selectedHelper (pixelMask 0 0)
        selectionAction.SELECTION_INTERSECT = some (t1, h1) ∧
      selectPixelSelection unitRect h1 (pixelMask 1 0)
        selectionAction.SELECTION_INTERSECT = some (t2, h2) ∧
      h2.selection = some s ∧ ∀ x y, s.pixelSelection x y = false :=
  have hdisjoint : ∀ x y, ¬ (pixelMask 0 0 x y = true ∧ pixelMask 1 0 x y = true) :=
    fun x y => by simp [pixelMask]; omega
  ⟨hdisjoint,
    intersect_then_intersect_disjoint_is_empty unitRect selectedHelper (pixelMask 0 0)
      (pixelMask 1 0) hdisjoint⟩

/-- Explicit form of `addSelectionShape` on a layer whose selection, if any, has no
container yet: the container is created, registered, its registration command run, and
then `shape` is registered and made its child. -/
theorem addSelectionShape_create (h : KisSelectionToolHelper) (shape : KoShape)
    (hnone : shapeSelectionOf h = none) :
    addSelectionShape h shape =
      some (QUndoCommand.addShapeCommand (h.nextCommand + 1) (ShapeRef.shape shape),
        { h with
          selection := some
            { pixelSelection :=
                (h.selection.map (fun s => s.pixelSelection)).getD (fun _ _ => false)
              shapeSelection := some { ident := h.nextContainer, children := [shape] } }
          nextCommand := h.nextCommand + 2
          nextContainer := h.nextContainer + 1
          calls := h.calls ++
            ((if h.selection.isNone then [Call.setGlobalSelection] else []) ++
             [Call.newKisShapeSelection h.nextContainer,
              Call.addShape (ShapeRef.container h.nextContainer)
                (QUndoCommand.addShapeCommand h.nextCommand
                  (ShapeRef.container h.nextContainer)),
              Call.redo (QUndoCommand.addShapeCommand h.nextCommand
                (ShapeRef.container h.nextContainer)),
              Call.setShapeSelection h.nextContainer,
              Call.addShape (ShapeRef.shape shape)
                (QUndoCommand.addShapeCommand (h.nextCommand + 1) (ShapeRef.shape shape)),
              Call.addChild h.nextContainer shape]) }) := by
  rcases h with ⟨sel, bounds, name, nc, nk, calls⟩
  cases sel with
  | none =>
    simp [addSelectionShape, setGlobalSelection, newKisShapeSelection,
      shapeControllerAddShape, redo, setShapeSelection, addChild]
  | some s =>
    rcases s with ⟨px, shp⟩
    cases shp with
    | none =>
      simp [addSelectionShape, newKisShapeSelection, shapeControllerAddShape, redo,
        setShapeSelection, addChild]
    | some c => simp [shapeSelectionOf] at hnone

/-- Explicit form of `addSelectionShape` on a layer whose selection already has a
container: `shape` is registered and made a child of that container. -/
theorem addSelectionShape_reuse (h : KisSelectionToolHelper) (shape : KoShape)
    (s : KisSelection) (c : KisShapeSelection)
    (hs : h.selection = some s) (hc : s.shapeSelection = some c) :
    addSelectionShape h shape =
      some (QUndoCommand.addShapeCommand h.nextCommand (ShapeRef.shape shape),
        { h with
          selection := some
            { s with shapeSelection := some { c with children := c.children ++ [shape] } }
          nextCommand := h.nextCommand + 1
          calls := h.calls ++
            [Call.addShape (ShapeRef.shape shape)
               (QUndoCommand.addShapeCommand h.nextCommand (ShapeRef.shape shape)),
             Call.addChild c.ident shape] }) := by
  rcases h with ⟨sel, bounds, name, nc, nk, calls⟩
  rcases s with ⟨px, shp⟩
  simp only at hs hc
  subst hs hc
  simp [addSelectionShape, shapeControllerAddShape, addChild]

/-- C8: `addSelectionShape` always returns; the commands it runs itself are exactly the
registration commands of containers, one when the call creates the container and none
when it does not; the command returned is the one the shape controller answered for
`shape`, it is not among the commands run, and `shape` is a child of the container on
return. -/
theorem addSelectionShape_runs_only_container_registration (h : KisSelectionToolHelper)
    (shape : KoShape) :
    ∃ cmd h' new k,
      addSelectionShape h shape = some (cmd, h') ∧ h'.calls = h.calls ++ new ∧
      shapeSelectionOf h' = some k ∧ shape ∈ k.children ∧
      Call.addShape (ShapeRef.shape shape) cmd ∈ new ∧
      cmd ∉ redone new ∧
      redone new = containerRegistrations new ∧
      createdContainers new = (if (shapeSelectionOf h).isNone then [k.ident] else []) ∧
      redone new =
        (if (shapeSelectionOf h).isNone then
          [QUndoCommand.addShapeCommand h.nextCommand (ShapeRef.container k.ident)]
        else []) := by
  cases hk : shapeSelectionOf h with
  | none =>
    refine ⟨_, _, _, _, addSelectionShape_create h shape hk, rfl, rfl, ?_, ?_, ?_, ?_, ?_, ?_⟩
    · simp
    · simp
    · cases h.selection <;> simp [redone]
    · cases h.selection <;> simp [redone, containerRegistrations]
    · cases h.selection <;> simp [createdContainers]
    · cases h.selection <;> simp [redone]
  | some c =>
    obtain ⟨s, hs, hc⟩ : ∃ s, h.selection = some s ∧ s.shapeSelection = some c := by
      simpa [shapeSelectionOf, Option.bind_eq_some] using hk
    refine ⟨_, _, _, _, addSelectionShape_reuse h shape s c hs hc, rfl, rfl, ?_, ?_, ?_, ?_,
      ?_, ?_⟩
    · simp
    · simp
    · simp [redone]
    · simp [redone, containerRegistrations]
    · simp [createdContainers]
    · simp [redone]

/-- C5: for two different shapes, `addSelectionShape(s1)` followed by
`addSelectionShape(s2)` both return; the layer's selection then carries one container, the
very one it carried after the first call; the second call creates no container, the two
calls together create one when the layer had none and none otherwise; and the container
holds the children it had before followed by `s1` and `s2`. -/
theorem addSelectionShape_twice_one_container (h : KisSelectionToolHelper)
    (s1 s2 : KoShape) (_hne : s1 ≠ s2) :
    ∃ c1 h1 c2 h2 k1 k2 new1 new2,
      addSelectionShape h s1 = some (c1, h1) ∧ addSelectionShape h1 s2 = some (c2, h2) ∧
      h1.calls = h.calls ++ new1 ∧ h2.calls = h1.calls ++ new2 ∧
      shapeSelectionOf h1 = some k1 ∧ shapeSelectionOf h2 = some k2 ∧
      k2.ident = k1.ident ∧
      createdContainers new2 = [] ∧
      createdContainers (new1 ++ new2) =
        (if (shapeSelectionOf h).isNone then [k2.ident] else []) ∧
      k2.children =
        ((shapeSelectionOf h).map (fun k => k.children)).getD [] ++ [s1, s2] ∧
      s1 ∈ k2.children ∧ s2 ∈ k2.children := by
  cases hk : shapeSelectionOf h with
  | none =>
    refine ⟨_, _, _, _, _, _, _, _, addSelectionShape_create h s1 hk,
      addSelectionShape_reuse _ s2 _ _ rfl rfl, rfl, rfl, rfl, rfl, ?_, ?_, ?_, ?_, ?_, ?_⟩
    · simp
    · simp [createdContainers]
    · cases h.selection <;> simp [createdContainers]
    · simp
    · simp
    · simp
  | some c =>
    obtain ⟨s, hs, hc⟩ : ∃ s, h.selection = some s ∧ s.shapeSelection = some c := by
      simpa [shapeSelectionOf, Option.bind_eq_some] using hk
    refine ⟨_, _, _, _, _, _, _, _, addSelectionShape_reuse h s1 s c hs hc,
      addSelectionShape_reuse _ s2 _ _ rfl rfl, rfl, rfl, rfl, rfl, ?_, ?_, ?_, ?_, ?_, ?_⟩
    · simp
    · simp [createdContainers]
    · simp [createdContainers]
    · simp
    · simp
    · simp

/-- C5 at the sample helper with the shapes 7 and 9. -/
theorem addSelectionShape_twice_one_container_witness :
    (7 : KoShape) ≠ 9 ∧
    ∃ c1 h1 c2 h2 k1 k2 new1 new2,
      addSelectionShape freshHelper 7 = some (c1, h1) ∧
      addSelectionShape h1 9 = some (c2, h2) ∧
      h1.calls = freshHelper.calls ++ new1 ∧ h2.calls = h1.calls ++ new2 ∧
      shapeSelectionOf h1 = some k1 ∧ shapeSelectionOf h2 = some k2 ∧
      k2.ident = k1.ident ∧
      createdContainers new2 = [] ∧
      createdContainers (new1 ++ new2) =
        (if (shapeSelectionOf freshHelper).isNone then [k2.ident] else []) ∧
      k2.children =
        ((shapeSelectionOf freshHelper).map (fun k => k.children)).getD [] ++ [7, 9] ∧
      (7 : KoShape) ∈ k2.children ∧ (9 : KoShape) ∈ k2.children :=
  ⟨by decide, addSelectionShape_twice_one_container freshHelper 7 9 (by decide)⟩

/-- Adding the images of a list one by one to an existing layer always succeeds and
leaves the layer's former shapes followed by the list. -/
theorem foldlM_layerAddShape (refs : List KisReferenceImage) (t : ToolReferenceImages)
    (shapes : List KisReferenceImage) (hlayer : t.referenceImagesLayer = some shapes) :
    refs.foldlM layerAddShape t =
      some { t with referenceImagesLayer := some (shapes ++ refs) } := by
  induction refs generalizing t shapes with
  | nil =>
    rcases t with ⟨layer, boxes⟩
    simp only at hlayer
    simp [hlayer]
  | cons r rest ih =>
    rcases t with ⟨layer, boxes⟩
    simp only at hlayer
    subst hlayer
    simp only [List.foldlM, layerAddShape, Option.bind_eq_bind, Option.some_bind]
    rw [ih _ (shapes ++ [r]) rfl]
    simp

/-- With a reference-images layer in place, `loadReferenceImages` always returns; the
layer's shape list afterwards is the former list followed by the images of the loaded
collection, each once and in collection order, when the canvas is a painting canvas, a
file was chosen, it exists, it could be opened and `load` reported success; in every
other case the shape list is the former list. -/
theorem loadReferenceImages_with_layer (r : LoadRequest) (t : ToolReferenceImages)
    (shapes : List KisReferenceImage) (hlayer : t.referenceImagesLayer = some shapes) :
    ∃ t', loadReferenceImages r t = some t' ∧
      t'.referenceImagesLayer =
        some (if r.kisCanvas = true ∧ r.filename.isEmpty = false ∧ r.fileExists = true ∧
                r.openOk = true ∧ r.loadOk = true then
              shapes ++ r.referenceImages
            else shapes) := by
  rcases r with ⟨canvas, filename, fileExists, openOk, loadOk, refs⟩
  cases canvas <;> cases hname : filename.isEmpty <;> cases fileExists <;> cases openOk <;>
    cases loadOk <;>
    simp [loadReferenceImages, hname, messageBoxCritical, hlayer,
      foldlM_layerAddShape refs t shapes hlayer]

/-- Whether or not the document has a reference-images layer, a call that does not reach
a successful `load` (no painting canvas, no file chosen, file missing, file that cannot be
opened, `load` reporting failure) returns and leaves the layer as it was. -/
theorem loadReferenceImages_failure_keeps_layer (r : LoadRequest) (t : ToolReferenceImages)
    (hfail : ¬ (r.kisCanvas = true ∧ r.filename.isEmpty = false ∧ r.fileExists = true ∧
      r.openOk = true ∧ r.loadOk = true)) :
    ∃ t', loadReferenceImages r t = some t' ∧
      t'.referenceImagesLayer = t.referenceImagesLayer := by
  rcases r with ⟨canvas, filename, fileExists, openOk, loadOk, refs⟩
  cases canvas <;> cases hname : filename.isEmpty <;> cases fileExists <;> cases openOk <;>
    cases loadOk <;>
    simp_all [loadReferenceImages, messageBoxCritical]

/-- The lock count of two logs in a row is the sum of their counts. -/
theorem lockCount_append (a b : KisImage) : lockCount (a ++ b) = lockCount a + lockCount b := by
  induction a with
  | nil => simp [lockCount]
  | cons c cs ih =>
    cases c <;> simp [lockCount, ih] <;> omega

/-- C10: `redo` issues `lock()` when `m_lockImage` is set and `unlock()` otherwise, `undo`
issues the other one, each followed by one `refreshGraph()` and nothing else; `redo`
followed by `undo`, and `undo` followed by `redo`, leave the lock count where it was. -/
theorem lock_command_undo_opposes_redo (c : KisImageLockCommand) (m_image : KisImage) :
    c.redo m_image =
      m_image ++ [if c.m_lockImage then ImageCall.lock else ImageCall.unlock,
                  ImageCall.refreshGraph] ∧
    c.undo m_image =
      m_image ++ [if c.m_lockImage then ImageCall.unlock else ImageCall.lock,
                  ImageCall.refreshGraph] ∧
    lockCount (c.undo (c.redo m_image)) = lockCount m_image ∧
    lockCount (c.redo (c.undo m_image)) = lockCount m_image := by
  rcases c with ⟨flag⟩
  cases flag <;>
    simp [KisImageLockCommand.redo, KisImageLockCommand.undo, lockCount_append, lockCount]

end Krita
